import Mathlib

/-!
Verification of the slicing core of `rubin_sim`: the SDSS footprint-exact
healpix slicer (`rubin_sim/maf/slicers/healpix_sdss_slicer.py`).

The embedding is parametric in the scalar type `α` (a linear ordered field,
modelling IEEE doubles by exact arithmetic) and in a record `GeomFns α` of
the transcendental functions (`sin`, `cos`, `sqrt`, `pi`) the pipeline uses.
Instantiating `α := ℝ` with `Real.sin` etc. gives the intended real-number
semantics; instantiating `α := ℚ` with simple total functions keeps the
structural theorems' witnesses computable.

Components modelled:
 * `treexyz` / `buildTree` / `xyzAngularRadius`: the spatial-index support
   of the base slicer (`BaseSpatialSlicer._treexyz`, `_build_tree`,
   `_setRad`), which is not part of the four source files; modelled from
   the spec, section 4.1.
 * `queryBallPoint`: `scipy.spatial.cKDTree.query_ball_point`, the closed
   Euclidean ball query of the spatial index (spec section 4.1).
 * `gnomonicProjectToxy`: `rubin_sim.utils.gnomonic_project_toxy`, not part
   of the four source files; modelled from the spec, section 4.2 (standard
   gnomonic tangent-plane projection).
 * `edgeToggle` / `crossAux` / `pointInPath`: `matplotlib.path.Path.
   contains_point` at radius 0, i.e. the Graphics Gems
   "crossings-multiply" even-odd ray-casting test implemented in
   matplotlib's `_path.h` (`point_in_path_impl`).
 * `SlicerConfig`, `cornerLables`, `setupSlicer`, `sliceSimData`:
   translated directly from `HealpixSDSSSlicer.__init__`, `setup_slicer`
   and the rebound `_slice_sim_data` closure (source lines 14-118).
-/

namespace RubinSlicer

variable {α : Type} [LinearOrderedField α]

/-- Record of the transcendental scalar functions used by the pipeline.
At `ℝ` these are `Real.sin`, `Real.cos`, `Real.sqrt`, `Real.pi`. -/
structure GeomFns (α : Type) where
  sin : α → α
  cos : α → α
  sqrt : α → α
  pi : α

/-- Modelled from the spec (section 4.1): conversion of a spherical
`(ra, dec)` pair (radians) to unit-sphere Cartesian coordinates
`(x, y, z) = (cos δ cos α, cos δ sin α, sin δ)`.  This is
`BaseSpatialSlicer._treexyz`, which is not among the four source files. -/
def treexyz (g : GeomFns α) (ra dec : α) : α × α × α :=
  (g.cos dec * g.cos ra, g.cos dec * g.sin ra, g.sin dec)

/-- Modelled from the spec (section 4.1): the spatial index stores the
unit-sphere Cartesian embedding of all observation positions
(`BaseSpatialSlicer._build_tree`, not among the four source files). -/
def buildTree (g : GeomFns α) (lons lats : List α) : List (α × α × α) :=
  (lons.zip lats).map fun p => treexyz g p.1 p.2

/-- Modelled from the spec (section 4.1): the angular search radius
(configured in degrees) is converted to the exact Euclidean chord-length
bound `c = 2 sin(r/2)` for the tree query (`BaseSpatialSlicer._setRad` /
`rubin_sim.utils.xyz_angular_radius`, not among the four source files). -/
def xyzAngularRadius (g : GeomFns α) (radiusDeg : α) : α :=
  2 * g.sin (radiusDeg * g.pi / 180 / 2)

/-- Euclidean distance between two Cartesian triples. -/
def dist3 (g : GeomFns α) (p q : α × α × α) : α :=
  g.sqrt ((p.1 - q.1) ^ 2 + (p.2.1 - q.2.1) ^ 2 + (p.2.2 - q.2.2) ^ 2)

/-- Semantics of `scipy.spatial.cKDTree.query_ball_point`: the row indices
of all stored points within (closed) Euclidean distance `r` of the query
point (spec section 4.1; the index itself is a performance device and does
not change the returned set). -/
def queryBallPoint (g : GeomFns α) (pts : List (α × α × α)) (center : α × α × α)
    (r : α) : List Nat :=
  (List.range pts.length).filter fun i =>
    decide (dist3 g (pts.getD i (0, 0, 0)) center ≤ r)

/-- Modelled from the spec (section 4.2): standard gnomonic (tangent-plane)
projection of `(ra1, dec1)` in the system centered at `(racen, deccen)`,
as computed by `rubin_sim.utils.gnomonic_project_toxy` (not among the four
source files). -/
def gnomonicProjectToxy (g : GeomFns α) (ra1 dec1 racen deccen : α) : α × α :=
  let cosc := g.sin deccen * g.sin dec1 + g.cos deccen * g.cos dec1 * g.cos (ra1 - racen)
  (g.cos dec1 * g.sin (ra1 - racen) / cosc,
    (g.cos deccen * g.sin dec1 - g.sin deccen * g.cos dec1 * g.cos (ra1 - racen)) / cosc)

/-- One edge step of matplotlib's `point_in_path_impl` (Graphics Gems
crossings-multiply test): the parity flag is toggled for the edge
`(x0,y0) -> (x1,y1)` iff the edge straddles the horizontal line through the
test point `(tx,ty)` and the `+x` ray from the test point hits it. -/
def edgeToggle (tx ty x0 y0 x1 y1 : α) : Bool :=
  (decide (y0 ≥ ty) != decide (y1 ≥ ty)) &&
    (decide ((y1 - ty) * (x0 - x1) ≥ (x1 - tx) * (y0 - y1)) == decide (y1 ≥ ty))

/-- Walk the remaining vertices, xor-ing the edge toggles (the running
`subpath_flag` of matplotlib's implementation). -/
def crossAux (tx ty : α) : α × α → List (α × α) → Bool
  | _, [] => false
  | (x0, y0), (x1, y1) :: rest =>
    xor (edgeToggle tx ty x0 y0 x1 y1) (crossAux tx ty (x1, y1) rest)

/-- Semantics of `matplotlib.path.Path.contains_point((tx, ty))` at the
default `radius = 0`: even-odd ray casting over the vertex list, with the
subpath implicitly closed back to its first vertex (as `point_in_path_impl`
does on the terminating `STOP` code). -/
def pointInPath (tx ty : α) : List (α × α) → Bool
  | [] => false
  | v :: rest => crossAux tx ty v (rest ++ [v])

/-- Column-name string for the first corner's longitude. -/
def colRA1 : String := "RA1"

/-- Column-name string for the first corner's latitude. -/
def colDec1 : String := "Dec1"

/-- Column-name string for the second corner's longitude. -/
def colRA2 : String := "RA2"

/-- Column-name string for the second corner's latitude. -/
def colDec2 : String := "Dec2"

/-- Column-name string for the third corner's longitude. -/
def colRA3 : String := "RA3"

/-- Column-name string for the third corner's latitude. -/
def colDec3 : String := "Dec3"

/-- Column-name string for the fourth corner's longitude. -/
def colRA4 : String := "RA4"

/-- Column-name string for the fourth corner's latitude. -/
def colDec4 : String := "Dec4"

/-- The corner column-name list assigned at source line 35:
`self.cornerLables = ["RA1", "Dec1", ..., "RA4", "Dec4"]` (the source's
spelling of the identifier is kept). -/
def cornerLables : List String :=
  [colRA1, colDec1, colRA2, colDec2, colRA3, colDec3, colRA4, colDec4]

/-- The keyword arguments of `HealpixSDSSSlicer.__init__` (source lines
14-24).  `lon_col` and `lat_col` default to `"RA1"` / `"Dec1"`. -/
structure SlicerConfig (α : Type) where
  nside : Nat
  lon_col : String
  lat_col : String
  verbose : Bool
  use_cache : Bool
  radius : α
  leafsize : Nat

/-- The corner labels carried by a freshly constructed slicer: source line
35 assigns the fixed list whatever the constructor arguments were. -/
def initCornerLables (_cfg : SlicerConfig α) : List String := cornerLables

/-- The slicer state as it stands after `setup_slicer` has run: the
KD-tree point set, the chord-length query radius, the eight corner-angle
columns, and the slice-point grid (`sid`, `ra`, `dec` per slice point). -/
structure SlicerState (α : Type) where
  tree : List (α × α × α)
  rad : α
  ra1 : List α
  dec1 : List α
  ra2 : List α
  dec2 : List α
  ra3 : List α
  dec3 : List α
  ra4 : List α
  dec4 : List α
  spSid : List Nat
  spRa : List α
  spDec : List α

/-- Translation of `setup_slicer` (source lines 40-48): build the tree
from the configured position columns, set the chord radius from the
configured angular radius, and store the corner columns read at the fixed
names of `cornerLables`.  A dataset is a map from column name to the
column's values; the slice-point grid (built by the healpix base class,
spec section 4.4) is passed in. -/
def setupSlicer (g : GeomFns α) (cfg : SlicerConfig α) (data : String → List α)
    (spSid : List Nat) (spRa spDec : List α) : SlicerState α :=
  { tree := buildTree g (data cfg.lon_col) (data cfg.lat_col)
    rad := xyzAngularRadius g cfg.radius
    ra1 := data colRA1
    dec1 := data colDec1
    ra2 := data colRA2
    dec2 := data colDec2
    ra3 := data colRA3
    dec3 := data colDec3
    ra4 := data colRA4
    dec4 := data colDec4
    spSid := spSid
    spRa := spRa
    spDec := spDec }

/-- Numpy fancy indexing `column[initIndices]`: gather the values of a
column at a list of row indices. -/
def gatherD (l : List α) (idxs : List Nat) : List α :=
  idxs.map fun i => l.getD i 0

/-- Vectorised gnomonic projection of paired `(ra, dec)` columns about one
center, as in source lines 67-90. -/
def gnomList (g : GeomFns α) (ras decs : List α) (racen deccen : α) : List (α × α) :=
  (ras.zip decs).map fun p => gnomonicProjectToxy g p.1 p.2 racen deccen

/-- The `for i, ind in enumerate(initIndices)` loop of source lines
92-107: for each candidate row build the closed five-vertex corner loop
`[c1, c2, c3, c4, c1]` and keep the row index iff
`contains_point((0.0, 0.0))` holds. -/
def filterLoop : List Nat → List (α × α) → List (α × α) → List (α × α) → List (α × α) → List Nat
  | ind :: inds, c1 :: r1, c2 :: r2, c3 :: r3, c4 :: r4 =>
    if pointInPath 0 0 [c1, c2, c3, c4, c1] then
      ind :: filterLoop inds r1 r2 r3 r4
    else
      filterLoop inds r1 r2 r3 r4
  | _, _, _, _, _ => []

/-- The `slice_point` sub-dictionary of the returned record (source lines
111-115). -/
structure SlicePointRec (α : Type) where
  sid : Nat
  ra : α
  dec : α
  deriving DecidableEq

/-- The record returned by one `_slice_sim_data(islice)` call: the kept
row indices and the slice-point data (source lines 109-116). -/
structure SliceResult (α : Type) where
  idxs : List Nat
  slicePoint : SlicePointRec α
  deriving DecidableEq

/-- Translation of the rebound `_slice_sim_data` closure (source lines
51-116): convert the slice point to Cartesian, query the tree for the
candidate rows within the chord radius, gnomonically project the four
corner columns of the candidates about the slice point, and keep each
candidate whose closed corner loop contains the origin. -/
def sliceSimData (g : GeomFns α) (st : SlicerState α) (islice : Nat) : SliceResult α :=
  let ras := st.spRa.getD islice 0
  let decs := st.spDec.getD islice 0
  let sxyz := treexyz g ras decs
  let initIndices := queryBallPoint g st.tree sxyz st.rad
  let p1 := gnomList g (gatherD st.ra1 initIndices) (gatherD st.dec1 initIndices) ras decs
  let p2 := gnomList g (gatherD st.ra2 initIndices) (gatherD st.dec2 initIndices) ras decs
  let p3 := gnomList g (gatherD st.ra3 initIndices) (gatherD st.dec3 initIndices) ras decs
  let p4 := gnomList g (gatherD st.ra4 initIndices) (gatherD st.dec4 initIndices) ras decs
  { idxs := filterLoop initIndices p1 p2 p3 p4
    slicePoint :=
      { sid := st.spSid.getD islice 0
        ra := ras
        dec := decs } }

/-- One `_slice_sim_data` call with its effects made explicit: the result,
the slicer state after the call, and the log messages emitted during the
call.  The source closure reads `self` but assigns no attribute and calls
no logging facility, so the state passes through unchanged and the log is
empty; the function is total (no exception path). -/
structure SliceRun (α : Type) where
  res : SliceResult α
  post : SlicerState α
  log : List String

/-- Effect-explicit form of `_slice_sim_data` (source lines 51-116). -/
def sliceSimDataRun (g : GeomFns α) (st : SlicerState α) (islice : Nat) : SliceRun α :=
  { res := sliceSimData g st islice
    post := st
    log := [] }

/-- One full `produce()` pass: call `_slice_sim_data` on each requested
slice index in order, threading the slicer state through the calls. -/
def produceAux (g : GeomFns α) : SlicerState α → List Nat → List (SliceResult α) × SlicerState α
  | st, [] => ([], st)
  | st, i :: is =>
    let r := sliceSimDataRun g st i
    let rest := produceAux g r.post is
    (r.res :: rest.1, rest.2)

/-- The per-candidate closed corner loop `[c1, c2, c3, c4, c1]` of row
`ind`, gnomonically projected about the slice-point position. -/
def closedCornerLoop (g : GeomFns α) (st : SlicerState α) (ind : Nat)
    (racen deccen : α) : List (α × α) :=
  let p1 := gnomonicProjectToxy g (st.ra1.getD ind 0) (st.dec1.getD ind 0) racen deccen
  let p2 := gnomonicProjectToxy g (st.ra2.getD ind 0) (st.dec2.getD ind 0) racen deccen
  let p3 := gnomonicProjectToxy g (st.ra3.getD ind 0) (st.dec3.getD ind 0) racen deccen
  let p4 := gnomonicProjectToxy g (st.ra4.getD ind 0) (st.dec4.getD ind 0) racen deccen
  [p1, p2, p3, p4, p1]

/-- Specification-side footprint resolver, following the words of spec
section 4.3: for each candidate row, project its four footprint corners
into the tangent plane centered at the slice-point position and keep the
row iff the origin lies inside the quadrilateral by the point-in-polygon
(ray casting) test over the closed corner loop, first corner repeated
last. -/
def footprintResolveSpec (g : GeomFns α) (cands : List Nat) (st : SlicerState α)
    (racen deccen : α) : List Nat :=
  cands.filter fun ind => pointInPath 0 0 (closedCornerLoop g st ind racen deccen)

/-- The intended real-number instantiation of the scalar functions. -/
noncomputable def realFns : GeomFns ℝ :=
  { sin := Real.sin, cos := Real.cos, sqrt := Real.sqrt, pi := Real.pi }

/-- A computable rational instantiation used to evaluate the structural
(instantiation-independent) theorems on concrete inputs.  With
`sin = id`, `cos = const 1` the gnomonic projection about `(0, 0)`
becomes the identity `(ra, dec) ↦ (ra, dec)` and `treexyz ra dec =
(1, ra, dec)`. -/
def ratFns : GeomFns ℚ :=
  { sin := fun x => x, cos := fun _ => 1, sqrt := fun x => x, pi := 0 }

/-- Post-setup state for a dataset with zero rows. -/
def emptyState : SlicerState ℚ :=
  { tree := [], rad := 0
    ra1 := [], dec1 := [], ra2 := [], dec2 := []
    ra3 := [], dec3 := [], ra4 := [], dec4 := []
    spSid := [], spRa := [], spDec := [] }

/-- Post-setup state with one observation at the slice point `(0, 0)`
whose (projected) footprint is the square with corners `(±1, ±1)`. -/
def qState : SlicerState ℚ :=
  { tree := [(1, 0, 0)], rad := 1
    ra1 := [1], dec1 := [1]
    ra2 := [-1], dec2 := [1]
    ra3 := [-1], dec3 := [-1]
    ra4 := [1], dec4 := [-1]
    spSid := [0], spRa := [0], spDec := [0] }

/-- Column-name string used as an injected position-longitude column. -/
def colLON : String := "LON"

/-- Column-name string used as an injected position-latitude column. -/
def colLAT : String := "LAT"

/-- A slicer configuration whose injectable column names are `"LON"` /
`"LAT"` — it mentions no corner column name anywhere (the constructor has
no parameter for them). -/
def cfg4 : SlicerConfig ℚ :=
  { nside := 128, lon_col := colLON, lat_col := colLAT
    verbose := true, use_cache := true, radius := 17 / 60, leafsize := 100 }

/-- A dataset whose hard-coded corner column `"RA1"` holds `[5]` while the
configured position columns hold `[9]` and `[7]`. -/
def data4 : String → List ℚ := fun s =>
  if s = colRA1 then [5]
  else if s = colLON then [9]
  else if s = colLAT then [7]
  else []

/-- Post-setup state (one observation at the slice point, generous chord
radius) whose projected footprint is the axis-aligned rectangle with
corners `(±1, 0)` and `(±1, √2)`: the origin lies exactly on the bottom
edge of the projected quadrilateral. -/
noncomputable def st3 : SlicerState ℝ :=
  { tree := [treexyz realFns 0 0], rad := 1
    ra1 := [-(Real.pi / 4)], dec1 := [0]
    ra2 := [Real.pi / 4], dec2 := [0]
    ra3 := [Real.pi / 4], dec3 := [Real.pi / 4]
    ra4 := [-(Real.pi / 4)], dec4 := [Real.pi / 4]
    spSid := [0], spRa := [0], spDec := [0] }

/-- Post-setup state (one observation at the slice point) whose four
footprint corners all lie on the equator: the projected corner set
`(-1,0), (1,0), (-1,0), (1,0)` is collinear, so it fails to form a simple
polygon. -/
noncomputable def st9 : SlicerState ℝ :=
  { tree := [treexyz realFns 0 0], rad := 1
    ra1 := [-(Real.pi / 4)], dec1 := [0]
    ra2 := [Real.pi / 4], dec2 := [0]
    ra3 := [-(Real.pi / 4)], dec3 := [0]
    ra4 := [Real.pi / 4], dec4 := [0]
    spSid := [0], spRa := [0], spDec := [0] }

/-- Column-name string for the scenario's position longitude column. -/
def colRA : String := "RA"

/-- Column-name string for the scenario's position latitude column. -/
def colDec : String := "Dec"

/-- Configuration for the spec section 8 scenario: position columns
`"RA"` / `"Dec"`, search radius 2 degrees. -/
noncomputable def c8cfg : SlicerConfig ℝ :=
  { nside := 128, lon_col := colRA, lat_col := colDec
    verbose := true, use_cache := true, radius := 2, leafsize := 100 }

/-- The spec section 8 scenario dataset: three observations at positions
`(0°, 0°)`, `(0°, 1°)`, `(90°, 0°)` (radians `0`, `π/180`, `π/2`).
Observation 0's footprint is the 0.5°-wide square centered on `(0°, 0°)`
(corners at `±0.25° = ±π/720`); observation 1's footprint is the 0.5°-wide
square centered on `(0°, 1°)`, which does not cover the origin;
observation 2's corners are irrelevant (it is outside the search
radius). -/
noncomputable def c8data : String → List ℝ := fun s =>
  if s = colRA then [0, 0, Real.pi / 2]
  else if s = colDec then [0, Real.pi / 180, 0]
  else if s = colRA1 then [Real.pi / 720, Real.pi / 720, 0]
  else if s = colDec1 then [Real.pi / 720, Real.pi / 180 + Real.pi / 720, 0]
  else if s = colRA2 then [-(Real.pi / 720), -(Real.pi / 720), 0]
  else if s = colDec2 then [Real.pi / 720, Real.pi / 180 + Real.pi / 720, 0]
  else if s = colRA3 then [-(Real.pi / 720), -(Real.pi / 720), 0]
  else if s = colDec3 then [-(Real.pi / 720), Real.pi / 180 - Real.pi / 720, 0]
  else if s = colRA4 then [Real.pi / 720, Real.pi / 720, 0]
  else if s = colDec4 then [-(Real.pi / 720), Real.pi / 180 - Real.pi / 720, 0]
  else []

/-- The scenario state: `setup_slicer` on the scenario dataset with a
single slice point at `(0°, 0°)`. -/
noncomputable def c8state : SlicerState ℝ :=
  setupSlicer realFns c8cfg c8data [0] [0] [0]

/-! ## Helper lemmas -/

/-- An edge whose endpoints are both on or above the test point's
horizontal line never toggles the crossing parity. -/
theorem edgeToggle_false_of_ge (tx ty x0 y0 x1 y1 : α) (h0 : ty ≤ y0) (h1 : ty ≤ y1) :
    edgeToggle tx ty x0 y0 x1 y1 = false := by
  unfold edgeToggle
  rw [decide_eq_true (show y0 ≥ ty from h0), decide_eq_true (show y1 ≥ ty from h1)]
  rfl

/-- If every remaining vertex is on or above the test point's horizontal
line, the crossing walk accumulates no toggles. -/
theorem crossAux_false_of_ge (tx ty : α) :
    ∀ (v : α × α) (l : List (α × α)), ty ≤ v.2 → (∀ w ∈ l, ty ≤ w.2) →
      crossAux tx ty v l = false
  | _, [], _, _ => rfl
  | (x0, y0), (x1, y1) :: rest, hv, hl => by
    have h1 : ty ≤ y1 := hl (x1, y1) (List.mem_cons_self _ _)
    have htail := crossAux_false_of_ge tx ty (x1, y1) rest h1
      (fun w hw => hl w (List.mem_cons_of_mem _ hw))
    simp only [crossAux, htail, edgeToggle_false_of_ge tx ty x0 y0 x1 y1 hv h1]
    rfl

/-- A polygon lying entirely on or above the test point's horizontal line
does not contain the test point under the even-odd crossings test.  In
particular a point exactly on a bottom horizontal edge is "outside". -/
theorem pointInPath_false_of_ge (tx ty : α) (verts : List (α × α))
    (h : ∀ w ∈ verts, ty ≤ w.2) : pointInPath tx ty verts = false := by
  cases verts with
  | nil => rfl
  | cons v rest =>
    refine crossAux_false_of_ge tx ty v (rest ++ [v]) (h v (List.mem_cons_self _ _)) ?_
    intro w hw
    rcases List.mem_append.mp hw with h' | h'
    · exact h w (List.mem_cons_of_mem _ h')
    · rcases List.mem_singleton.mp h' with rfl
      exact h w (List.mem_cons_self _ _)

/-- The even-odd crossings test reports the origin inside the axis-aligned
rectangle with corners `(±t, ±u)` traversed in the source's corner order
(first corner repeated last). -/
theorem pointInPath_rect (t u : α) (ht : 0 < t) (hu : 0 < u) :
    pointInPath (0:α) 0 [(t, u), (-t, u), (-t, -u), (t, -u), (t, u)] = true := by
  have hu0 : decide ((u:α) ≥ 0) = true := decide_eq_true hu.le
  have hnu : decide ((-u:α) ≥ 0) = false :=
    decide_eq_false fun h => absurd (neg_nonneg.mp h) (not_le.mpr hu)
  have e1 : edgeToggle (0:α) 0 t u (-t) u = false := by
    unfold edgeToggle; rw [hu0]; rfl
  have e2 : edgeToggle (0:α) 0 (-t) u (-t) (-u) = false := by
    have hc : ((-u:α) - 0) * (-t - -t) ≥ (-t - 0) * (u - -u) := by nlinarith
    unfold edgeToggle; rw [hu0, hnu, decide_eq_true hc]; rfl
  have e3 : edgeToggle (0:α) 0 (-t) (-u) t (-u) = false := by
    unfold edgeToggle; rw [hnu]; rfl
  have e4 : edgeToggle (0:α) 0 t (-u) t u = true := by
    have hc : ((u:α) - 0) * (t - t) ≥ (t - 0) * (-u - u) := by nlinarith
    unfold edgeToggle; rw [hu0, hnu, decide_eq_true hc]; rfl
  have e5 : edgeToggle (0:α) 0 t u t u = false := by
    unfold edgeToggle; rw [hu0]; rfl
  simp only [pointInPath, List.cons_append, List.nil_append, crossAux, e1, e2, e3, e4, e5]
  rfl

/-- The candidate loop of source lines 92-107 is the filter of the
candidate list by the per-row origin-containment test. -/
theorem filterLoop_gather (g : GeomFns α) (racen deccen : α)
    (l1 m1 l2 m2 l3 m3 l4 m4 : List α) (inds : List Nat) :
    filterLoop inds
        (gnomList g (gatherD l1 inds) (gatherD m1 inds) racen deccen)
        (gnomList g (gatherD l2 inds) (gatherD m2 inds) racen deccen)
        (gnomList g (gatherD l3 inds) (gatherD m3 inds) racen deccen)
        (gnomList g (gatherD l4 inds) (gatherD m4 inds) racen deccen) =
      inds.filter fun ind =>
        pointInPath 0 0
          [gnomonicProjectToxy g (l1.getD ind 0) (m1.getD ind 0) racen deccen,
           gnomonicProjectToxy g (l2.getD ind 0) (m2.getD ind 0) racen deccen,
           gnomonicProjectToxy g (l3.getD ind 0) (m3.getD ind 0) racen deccen,
           gnomonicProjectToxy g (l4.getD ind 0) (m4.getD ind 0) racen deccen,
           gnomonicProjectToxy g (l1.getD ind 0) (m1.getD ind 0) racen deccen] := by
  induction inds with
  | nil => rfl
  | cons ind inds ih =>
    simp only [gatherD, List.map_cons, gnomList, List.zip, List.zipWith, filterLoop,
      List.filter_cons]
    simp only [gatherD, gnomList, List.zip] at ih
    rw [ih]

/-- The membership list returned by `_slice_sim_data` is the radius-query
candidate list filtered by the per-candidate origin-in-projected-corners
test. -/
theorem sliceSimData_idxs_eq (g : GeomFns α) (st : SlicerState α) (islice : Nat) :
    (sliceSimData g st islice).idxs =
      (queryBallPoint g st.tree
          (treexyz g (st.spRa.getD islice 0) (st.spDec.getD islice 0)) st.rad).filter
        fun ind =>
          pointInPath 0 0
            (closedCornerLoop g st ind (st.spRa.getD islice 0) (st.spDec.getD islice 0)) := by
  simp only [sliceSimData]
  rw [filterLoop_gather]
  rfl

/-- `produce()` does not modify the slicer state: the state after a pass
is the state built at setup. -/
theorem produceAux_post (g : GeomFns α) (islices : List Nat) :
    ∀ st : SlicerState α, (produceAux g st islices).2 = st := by
  induction islices with
  | nil => intro st; rfl
  | cons i is ih => intro st; simp only [produceAux, sliceSimDataRun]; exact ih st

/-! ## Claim theorems -/

/-- C1: for every dataset, slice point and search radius, the membership
set produced by the footprint-exact resolver is a subset of the membership
set produced by the radius-only resolver at that same slice point and
radius: every row index in the returned `idxs` list is drawn from the
candidate set returned by the spatial-index radius query. -/
theorem c1_footprint_subset_radius (g : GeomFns α) (st : SlicerState α) (islice : Nat) :
    ∀ ind ∈ (sliceSimData g st islice).idxs,
      ind ∈ queryBallPoint g st.tree
          (treexyz g (st.spRa.getD islice 0) (st.spDec.getD islice 0)) st.rad := by
  intro ind h
  rw [sliceSimData_idxs_eq] at h
  exact List.mem_of_mem_filter h

/-- Concrete evaluation: the single observation of `qState` is kept by the
footprint resolver. -/
theorem qState_idxs : (sliceSimData ratFns qState 0).idxs = [0] := by
  rw [sliceSimData_idxs_eq]
  have hq : queryBallPoint ratFns qState.tree
      (treexyz ratFns (qState.spRa.getD 0 0) (qState.spDec.getD 0 0)) qState.rad = [0] := by
    norm_num [queryBallPoint, treexyz, dist3, ratFns, qState, List.range_succ]
  rw [hq]
  have hloop : closedCornerLoop ratFns qState 0 (qState.spRa.getD 0 0) (qState.spDec.getD 0 0) =
      [((1:ℚ), (1:ℚ)), (-1, 1), (-1, -1), (1, -1), (1, 1)] := by
    norm_num [closedCornerLoop, gnomonicProjectToxy, ratFns, qState]
  simp only [List.filter_cons, List.filter_nil, hloop,
    pointInPath_rect (1:ℚ) 1 one_pos one_pos, if_true]

/-- Witness for C1 at a concrete computable instance: the single
observation of `qState` is kept by the footprint resolver and indeed lies
in the radius-query candidate set. -/
theorem c1_witness :
    0 ∈ (sliceSimData ratFns qState 0).idxs ∧
      0 ∈ queryBallPoint ratFns qState.tree
          (treexyz ratFns (qState.spRa.getD 0 0) (qState.spDec.getD 0 0)) qState.rad :=
  ⟨by rw [qState_idxs]; exact List.mem_singleton.mpr rfl,
    c1_footprint_subset_radius ratFns qState 0 0
      (by rw [qState_idxs]; exact List.mem_singleton.mpr rfl)⟩

/-- C2: for every candidate row of every slice point, the footprint
resolver projects the row's four footprint corners into the tangent plane
centered at the slice point's position and keeps the row iff the origin
lies inside the quadrilateral formed by the closed corner loop (first
corner repeated last) under the point-in-polygon (ray casting) test: the
returned `idxs` equal the spec-side footprint resolver applied to the
radius-query candidates. -/
theorem c2_footprint_algorithm (g : GeomFns α) (st : SlicerState α) (islice : Nat) :
    (sliceSimData g st islice).idxs =
      footprintResolveSpec g
        (queryBallPoint g st.tree
          (treexyz g (st.spRa.getD islice 0) (st.spDec.getD islice 0)) st.rad)
        st (st.spRa.getD islice 0) (st.spDec.getD islice 0) := by
  rw [sliceSimData_idxs_eq]
  rfl

/-- C4 (amended): the position column names `lon_col` / `lat_col` are
injectable configuration used to build the tree, but the eight footprint
corner column names are hard-coded to `RA1 ... Dec4` in the constructor,
and setup always reads the corners from those fixed columns whatever the
configuration. -/
theorem c4_amended_corner_columns_hardcoded (g : GeomFns α) (cfg : SlicerConfig α)
    (data : String → List α) (spSid : List Nat) (spRa spDec : List α) :
    initCornerLables cfg = cornerLables ∧
      (setupSlicer g cfg data spSid spRa spDec).tree =
        buildTree g (data cfg.lon_col) (data cfg.lat_col) ∧
      (setupSlicer g cfg data spSid spRa spDec).ra1 = data colRA1 ∧
      (setupSlicer g cfg data spSid spRa spDec).dec1 = data colDec1 ∧
      (setupSlicer g cfg data spSid spRa spDec).ra2 = data colRA2 ∧
      (setupSlicer g cfg data spSid spRa spDec).dec2 = data colDec2 ∧
      (setupSlicer g cfg data spSid spRa spDec).ra3 = data colRA3 ∧
      (setupSlicer g cfg data spSid spRa spDec).dec3 = data colDec3 ∧
      (setupSlicer g cfg data spSid spRa spDec).ra4 = data colRA4 ∧
      (setupSlicer g cfg data spSid spRa spDec).dec4 = data colDec4 :=
  ⟨rfl, rfl, rfl, rfl, rfl, rfl, rfl, rfl, rfl, rfl⟩

/-- C4 counterexample: a configuration naming position columns `"LON"` /
`"LAT"` (and naming no corner column anywhere — the constructor has no
such parameter) still makes setup read corner 1's longitude from the
hard-coded column `"RA1"`: with `data4` the corner data is `[5]` (the
content of `"RA1"`), not anything drawn from the configured columns, so
corner column names are not injectable configuration. -/
theorem c4_counterexample :
    cfg4.lon_col = colLON ∧ colLON ≠ colRA1 ∧ colLAT ≠ colRA1 ∧
      initCornerLables cfg4 = cornerLables ∧
      data4 colLON = [9] ∧ data4 colLAT = [7] ∧
      (setupSlicer ratFns cfg4 data4 [] [] []).ra1 = [5] :=
  ⟨rfl, by decide, by decide, rfl, by decide, by decide, by decide⟩

/-- C5: after a single setup, two `produce()` passes over the same slice
indices return identical result sequences (same `sid`, `ra`, `dec` and
same membership sets): a pass leaves the state built at setup unchanged,
so producing is a deterministic function of that state. -/
theorem c5_produce_deterministic (g : GeomFns α) (st : SlicerState α) (islices : List Nat) :
    (produceAux g st islices).2 = st ∧
      (produceAux g (produceAux g st islices).2 islices).1 = (produceAux g st islices).1 := by
  refine ⟨produceAux_post g islices st, ?_⟩
  rw [produceAux_post g islices st]

/-- C6: for every point set, query center and radii `r1 ≤ r2`, every row
index returned by the radius query at `r1` is also returned at `r2`:
increasing the search radius never removes a member from the
radius-resolver membership set. -/
theorem c6_radius_query_monotonic (g : GeomFns α) (pts : List (α × α × α))
    (center : α × α × α) (r1 r2 : α) (h : r1 ≤ r2) :
    ∀ i ∈ queryBallPoint g pts center r1, i ∈ queryBallPoint g pts center r2 := by
  intro i hi
  rw [queryBallPoint, List.mem_filter] at hi ⊢
  exact ⟨hi.1, decide_eq_true (le_trans (of_decide_eq_true hi.2) h)⟩

/-- Witness for C6 at a concrete computable instance. -/
theorem c6_witness :
    (0:ℚ) ≤ 1 ∧
      ∀ i ∈ queryBallPoint ratFns [((1:ℚ), 0, 0)] (1, 0, 0) 0,
        i ∈ queryBallPoint ratFns [((1:ℚ), 0, 0)] (1, 0, 0) 1 :=
  ⟨by norm_num, c6_radius_query_monotonic ratFns [(1, 0, 0)] (1, 0, 0) 0 1 (by norm_num)⟩

/-- C7: whenever the radius query returns an empty candidate set — in
particular when the dataset has zero rows — the slicing function returns
normally with an empty membership list and the well-formed slice-point
record of the stored grid values; there is no error path. -/
theorem c7_empty_candidates (g : GeomFns α) (st : SlicerState α) (islice : Nat)
    (h : st.tree = [] ∨
      queryBallPoint g st.tree
          (treexyz g (st.spRa.getD islice 0) (st.spDec.getD islice 0)) st.rad = []) :
    (sliceSimData g st islice).idxs = [] ∧
      (sliceSimData g st islice).slicePoint =
        { sid := st.spSid.getD islice 0
          ra := st.spRa.getD islice 0
          dec := st.spDec.getD islice 0 } := by
  refine ⟨?_, rfl⟩
  rw [sliceSimData_idxs_eq]
  rcases h with h | h
  · rw [h]; rfl
  · rw [h]; rfl

/-- Witness for C7: the empty dataset. -/
theorem c7_witness :
    (emptyState.tree = [] ∨
        queryBallPoint ratFns emptyState.tree
            (treexyz ratFns (emptyState.spRa.getD 0 0) (emptyState.spDec.getD 0 0))
            emptyState.rad = []) ∧
      ((sliceSimData ratFns emptyState 0).idxs = [] ∧
        (sliceSimData ratFns emptyState 0).slicePoint =
          { sid := emptyState.spSid.getD 0 0
            ra := emptyState.spRa.getD 0 0
            dec := emptyState.spDec.getD 0 0 }) :=
  ⟨Or.inl rfl, c7_empty_candidates ratFns emptyState 0 (Or.inl rfl)⟩

/-- C3 (amended): a slice point exactly on a projected footprint edge is
not uniformly treated as contained: under the even-odd crossings test a
quadrilateral whose bottom horizontal edge passes through the origin (all
projected corners on or above the x-axis) is resolved as not containing
the origin, although the origin lies on the closed edge between the first
two corners.  Boundary semantics is therefore not closed. -/
theorem c3_amended_on_edge_not_contained (t u : α) (ht : 0 < t) (hu : 0 < u) :
    pointInPath (0:α) 0 [(-t, 0), (t, 0), (t, u), (-t, u), (-t, 0)] = false ∧
      ((0:α), (0:α)) ∈ segment α (-t, (0:α)) (t, (0:α)) := by
  constructor
  · refine pointInPath_false_of_ge 0 0 _ ?_
    intro w hw
    simp only [List.mem_cons, List.mem_singleton] at hw
    rcases hw with rfl | rfl | rfl | rfl | rfl | h
    · exact le_refl 0
    · exact le_refl 0
    · exact hu.le
    · exact hu.le
    · exact le_refl 0
    · exact absurd h (List.not_mem_nil w)
  · refine ⟨1 / 2, 1 / 2, by norm_num, by norm_num, by norm_num, ?_⟩
    simp only [Prod.smul_mk, smul_eq_mul, Prod.mk_add_mk, Prod.mk.injEq]
    constructor <;> ring

/-- Witness for C3 (amended) at `t = u = 1` over `ℚ`. -/
theorem c3_amended_witness :
    (0:ℚ) < 1 ∧
      (pointInPath (0:ℚ) 0 [(-1, 0), (1, 0), (1, 1), (-1, 1), (-1, 0)] = false ∧
        ((0:ℚ), (0:ℚ)) ∈ segment ℚ (-(1:ℚ), (0:ℚ)) ((1:ℚ), (0:ℚ))) :=
  ⟨by norm_num, c3_amended_on_edge_not_contained 1 1 one_pos one_pos⟩

/-- C9 (amended): a degenerate (self-intersecting or collinear) corner set
is not logged — the slicing call emits no log message at all — and is
resolved by the very same point-in-polygon test as every other row (the
deterministic even-odd crossings test); the call is total, so one bad row
never aborts the slicing pass. -/
theorem c9_amended_degenerate_not_logged (g : GeomFns α) (st : SlicerState α) (islice : Nat) :
    (sliceSimDataRun g st islice).log = [] ∧
      (sliceSimDataRun g st islice).res.idxs =
        (queryBallPoint g st.tree
            (treexyz g (st.spRa.getD islice 0) (st.spDec.getD islice 0)) st.rad).filter
          (fun ind =>
            pointInPath 0 0
              (closedCornerLoop g st ind (st.spRa.getD islice 0) (st.spDec.getD islice 0))) :=
  ⟨rfl, sliceSimData_idxs_eq g st islice⟩

/-- Gnomonic projection about the center `(0, 0)` in the real model:
`x = cos δ sin α / (cos δ cos α)`, `y = sin δ / (cos δ cos α)`. -/
theorem gnom_center0 (ra dec : ℝ) :
    gnomonicProjectToxy realFns ra dec 0 0 =
      (Real.cos dec * Real.sin ra / (Real.cos dec * Real.cos ra),
        Real.sin dec / (Real.cos dec * Real.cos ra)) := by
  simp [gnomonicProjectToxy, realFns, Real.sin_zero, Real.cos_zero, sub_zero]

/-- The projected corner loop of `st3`'s single observation: an
axis-aligned rectangle whose bottom edge runs from `(-1, 0)` to `(1, 0)`
through the origin. -/
theorem st3_loop :
    closedCornerLoop realFns st3 0 0 0 =
      [((-1:ℝ), (0:ℝ)), (1, 0), (1, Real.sqrt 2), (-1, Real.sqrt 2), (-1, 0)] := by
  have hs2 : Real.sqrt 2 ≠ 0 := ne_of_gt (Real.sqrt_pos.mpr (by norm_num))
  have hs22 : Real.sqrt 2 * Real.sqrt 2 = 2 := Real.mul_self_sqrt (by norm_num)
  have hp1 : gnomonicProjectToxy realFns (-(Real.pi / 4)) 0 0 0 = ((-1:ℝ), (0:ℝ)) := by
    rw [gnom_center0, Real.sin_neg, Real.cos_neg, Real.sin_pi_div_four, Real.cos_pi_div_four,
      Real.sin_zero, Real.cos_zero]
    rw [Prod.mk.injEq]
    constructor <;> field_simp <;> ring
  have hp2 : gnomonicProjectToxy realFns (Real.pi / 4) 0 0 0 = ((1:ℝ), (0:ℝ)) := by
    rw [gnom_center0, Real.sin_pi_div_four, Real.cos_pi_div_four, Real.sin_zero, Real.cos_zero]
    rw [Prod.mk.injEq]
    constructor <;> field_simp <;> ring
  have hp3 : gnomonicProjectToxy realFns (Real.pi / 4) (Real.pi / 4) 0 0 =
      ((1:ℝ), Real.sqrt 2) := by
    rw [gnom_center0, Real.sin_pi_div_four, Real.cos_pi_div_four]
    rw [Prod.mk.injEq]
    constructor
    · field_simp
    · rw [div_eq_iff (by positivity)]
      linear_combination (-(Real.sqrt 2) / 4) * hs22
  have hp4 : gnomonicProjectToxy realFns (-(Real.pi / 4)) (Real.pi / 4) 0 0 =
      ((-1:ℝ), Real.sqrt 2) := by
    rw [gnom_center0, Real.sin_neg, Real.cos_neg, Real.sin_pi_div_four, Real.cos_pi_div_four]
    rw [Prod.mk.injEq]
    constructor
    · field_simp
    · rw [div_eq_iff (by positivity)]
      linear_combination (-(Real.sqrt 2) / 4) * hs22
  simp only [closedCornerLoop, st3, List.getD_cons_zero, hp1, hp2, hp3, hp4]

/-- C3 counterexample: a concrete candidate observation whose projected
quadrilateral has the origin lying exactly on its bottom edge (the closed
segment from `(-1, 0)` to `(1, 0)`), yet the footprint resolver excludes
the observation: its membership list is empty, refuting closed-boundary
semantics. -/
theorem c3_counterexample :
    closedCornerLoop realFns st3 0 0 0 =
        [((-1:ℝ), (0:ℝ)), (1, 0), (1, Real.sqrt 2), (-1, Real.sqrt 2), (-1, 0)] ∧
      ((0:ℝ), (0:ℝ)) ∈ segment ℝ ((-1:ℝ), (0:ℝ)) ((1:ℝ), (0:ℝ)) ∧
      queryBallPoint realFns st3.tree (treexyz realFns 0 0) st3.rad = [0] ∧
      (sliceSimData realFns st3 0).idxs = [] := by
  have hq : queryBallPoint realFns st3.tree (treexyz realFns 0 0) st3.rad = [0] := by
    norm_num [queryBallPoint, st3, dist3, treexyz, realFns, List.range_succ, Real.sqrt_zero]
  refine ⟨st3_loop, ?_, hq, ?_⟩
  · refine ⟨1 / 2, 1 / 2, by norm_num, by norm_num, by norm_num, ?_⟩
    simp only [Prod.smul_mk, smul_eq_mul, Prod.mk_add_mk, Prod.mk.injEq]
    norm_num
  · rw [sliceSimData_idxs_eq]
    rw [show st3.spRa.getD 0 0 = (0:ℝ) from rfl, show st3.spDec.getD 0 0 = (0:ℝ) from rfl, hq]
    have hfalse : pointInPath (0:ℝ) 0 (closedCornerLoop realFns st3 0 0 0) = false := by
      rw [st3_loop]
      refine pointInPath_false_of_ge 0 0 _ ?_
      intro w hw
      simp only [List.mem_cons, List.not_mem_nil, or_false] at hw
      rcases hw with rfl | rfl | rfl | rfl | rfl <;>
        simp [Real.sqrt_nonneg]
    simp only [List.filter_cons, List.filter_nil, hfalse]
    rfl

/-- The projected corner loop of `st9`'s single observation: all four
corners lie on the x-axis, a collinear (non-simple) polygon. -/
theorem st9_loop :
    closedCornerLoop realFns st9 0 0 0 =
      [((-1:ℝ), (0:ℝ)), (1, 0), (-1, 0), (1, 0), (-1, 0)] := by
  have hp1 : gnomonicProjectToxy realFns (-(Real.pi / 4)) 0 0 0 = ((-1:ℝ), (0:ℝ)) := by
    rw [gnom_center0, Real.sin_neg, Real.cos_neg, Real.sin_pi_div_four, Real.cos_pi_div_four,
      Real.sin_zero, Real.cos_zero]
    rw [Prod.mk.injEq]
    constructor <;> field_simp <;> ring
  have hp2 : gnomonicProjectToxy realFns (Real.pi / 4) 0 0 0 = ((1:ℝ), (0:ℝ)) := by
    rw [gnom_center0, Real.sin_pi_div_four, Real.cos_pi_div_four, Real.sin_zero, Real.cos_zero]
    rw [Prod.mk.injEq]
    constructor <;> field_simp <;> ring
  simp only [closedCornerLoop, st9, List.getD_cons_zero, hp1, hp2]

/-- C9 counterexample: a concrete candidate observation whose projected
corner set is collinear (fails to form a simple polygon).  The slicing
call emits no log message at all — refuting "logged" — while it resolves
the row by the ordinary point-in-polygon test (excluding it), leaves the
state unchanged and returns normally. -/
theorem c9_counterexample :
    closedCornerLoop realFns st9 0 0 0 =
        [((-1:ℝ), (0:ℝ)), (1, 0), (-1, 0), (1, 0), (-1, 0)] ∧
      queryBallPoint realFns st9.tree (treexyz realFns 0 0) st9.rad = [0] ∧
      (sliceSimDataRun realFns st9 0).log = [] ∧
      (sliceSimDataRun realFns st9 0).post = st9 ∧
      (sliceSimDataRun realFns st9 0).res.idxs = [] ∧
      (sliceSimDataRun realFns st9 0).res.slicePoint = { sid := 0, ra := 0, dec := 0 } := by
  have hq : queryBallPoint realFns st9.tree (treexyz realFns 0 0) st9.rad = [0] := by
    norm_num [queryBallPoint, st9, dist3, treexyz, realFns, List.range_succ, Real.sqrt_zero]
  refine ⟨st9_loop, hq, rfl, rfl, ?_, rfl⟩
  show (sliceSimData realFns st9 0).idxs = []
  rw [sliceSimData_idxs_eq]
  rw [show st9.spRa.getD 0 0 = (0:ℝ) from rfl, show st9.spDec.getD 0 0 = (0:ℝ) from rfl, hq]
  have hfalse : pointInPath (0:ℝ) 0 (closedCornerLoop realFns st9 0 0 0) = false := by
    rw [st9_loop]
    refine pointInPath_false_of_ge 0 0 _ ?_
    intro w hw
    simp only [List.mem_cons, List.not_mem_nil, or_false] at hw
    rcases hw with rfl | rfl | rfl | rfl | rfl <;> simp
  simp only [List.filter_cons, List.filter_nil, hfalse]
  rfl

/-- C10: the `idxs` list returned for a slice point is an order-preserving
subsequence (sublist, hence with matching multiplicities) of the candidate
list returned by the radius query, and the returned slice-point fields
`sid`, `ra`, `dec` are exactly the stored grid values for that slice
index, unchanged by the resolution. -/
theorem c10_sublist_and_slicepoint (g : GeomFns α) (st : SlicerState α) (islice : Nat) :
    List.Sublist (sliceSimData g st islice).idxs
        (queryBallPoint g st.tree
          (treexyz g (st.spRa.getD islice 0) (st.spDec.getD islice 0)) st.rad) ∧
      (sliceSimData g st islice).slicePoint.sid = st.spSid.getD islice 0 ∧
      (sliceSimData g st islice).slicePoint.ra = st.spRa.getD islice 0 ∧
      (sliceSimData g st islice).slicePoint.dec = st.spDec.getD islice 0 := by
  refine ⟨?_, rfl, rfl, rfl⟩
  rw [sliceSimData_idxs_eq]
  exact List.filter_sublist _

/-- C8: on the scenario dataset of three observations at `(0°, 0°)`,
`(0°, 1°)`, `(90°, 0°)` with the slice point at `(0°, 0°)` and search
radius `2°`, the radius query returns exactly the rows `[0, 1]`; and with
observation 1's footprint a 0.5°-wide square centered at `(0°, 1°)` (not
covering the origin after projection), the footprint-exact membership set
is exactly `[0]`. -/
theorem c8_scenario :
    queryBallPoint realFns c8state.tree (treexyz realFns 0 0) c8state.rad = [0, 1] ∧
      (sliceSimData realFns c8state 0).idxs = [0] := by
  have hπ : (0:ℝ) < Real.pi := Real.pi_pos
  have h1pos : (0:ℝ) < Real.pi / 180 := by positivity
  have hs1 : 0 < Real.sin (Real.pi / 180) :=
    Real.sin_pos_of_pos_of_lt_pi h1pos (by linarith)
  have hapos : (0:ℝ) < Real.pi / 720 := by positivity
  have hsa : 0 < Real.sin (Real.pi / 720) :=
    Real.sin_pos_of_pos_of_lt_pi hapos (by linarith)
  have hca : 0 < Real.cos (Real.pi / 720) :=
    Real.cos_pos_of_mem_Ioo ⟨by linarith, by linarith⟩
  have hsdp : 0 < Real.sin (Real.pi / 180 + Real.pi / 720) :=
    Real.sin_pos_of_pos_of_lt_pi (by linarith) (by linarith)
  have hcdp : 0 < Real.cos (Real.pi / 180 + Real.pi / 720) :=
    Real.cos_pos_of_mem_Ioo ⟨by linarith, by linarith⟩
  have hsdm : 0 < Real.sin (Real.pi / 180 - Real.pi / 720) :=
    Real.sin_pos_of_pos_of_lt_pi (by linarith) (by linarith)
  have hcdm : 0 < Real.cos (Real.pi / 180 - Real.pi / 720) :=
    Real.cos_pos_of_mem_Ioo ⟨by linarith, by linarith⟩
  -- the dataset columns
  have hcRA : c8data colRA = [0, 0, Real.pi / 2] := by simp [c8data]
  have hcDec : c8data colDec = [0, Real.pi / 180, 0] := by
    simp [c8data, colRA, colDec]
  have hcra1 : c8state.ra1 = [Real.pi / 720, Real.pi / 720, 0] := by
    show c8data colRA1 = _
    simp [c8data, colRA, colDec, colRA1]
  have hcdec1 : c8state.dec1 = [Real.pi / 720, Real.pi / 180 + Real.pi / 720, 0] := by
    show c8data colDec1 = _
    simp [c8data, colRA, colDec, colRA1, colDec1]
  have hcra2 : c8state.ra2 = [-(Real.pi / 720), -(Real.pi / 720), 0] := by
    show c8data colRA2 = _
    simp [c8data, colRA, colDec, colRA1, colDec1, colRA2]
  have hcdec2 : c8state.dec2 = [Real.pi / 720, Real.pi / 180 + Real.pi / 720, 0] := by
    show c8data colDec2 = _
    simp [c8data, colRA, colDec, colRA1, colDec1, colRA2, colDec2]
  have hcra3 : c8state.ra3 = [-(Real.pi / 720), -(Real.pi / 720), 0] := by
    show c8data colRA3 = _
    simp [c8data, colRA, colDec, colRA1, colDec1, colRA2, colDec2, colRA3]
  have hcdec3 : c8state.dec3 = [-(Real.pi / 720), Real.pi / 180 - Real.pi / 720, 0] := by
    show c8data colDec3 = _
    simp [c8data, colRA, colDec, colRA1, colDec1, colRA2, colDec2, colRA3, colDec3]
  have hcra4 : c8state.ra4 = [Real.pi / 720, Real.pi / 720, 0] := by
    show c8data colRA4 = _
    simp [c8data, colRA, colDec, colRA1, colDec1, colRA2, colDec2, colRA3, colDec3, colRA4]
  have hcdec4 : c8state.dec4 = [-(Real.pi / 720), Real.pi / 180 - Real.pi / 720, 0] := by
    show c8data colDec4 = _
    simp [c8data, colRA, colDec, colRA1, colDec1, colRA2, colDec2, colRA3, colDec3, colRA4,
      colDec4]
  -- the tree and the chord radius after setup
  have htree : c8state.tree =
      [((1:ℝ), 0, 0), (Real.cos (Real.pi / 180), 0, Real.sin (Real.pi / 180)), ((0:ℝ), 1, 0)] := by
    show buildTree realFns (c8data colRA) (c8data colDec) = _
    rw [hcRA, hcDec]
    simp [buildTree, treexyz, realFns, Real.sin_zero, Real.cos_zero, Real.sin_pi_div_two,
      Real.cos_pi_div_two]
  have hrad : c8state.rad = 2 * Real.sin (Real.pi / 180) := by
    show xyzAngularRadius realFns c8cfg.radius = _
    simp only [xyzAngularRadius, realFns, c8cfg]
    rw [show (2:ℝ) * Real.pi / 180 / 2 = Real.pi / 180 by ring]
  have ht00 : treexyz realFns 0 0 = ((1:ℝ), 0, 0) := by
    norm_num [treexyz, realFns]
  -- the three distance conditions of the radius query
  have hd0 : dist3 realFns ((1:ℝ), 0, 0) ((1:ℝ), 0, 0) ≤ c8state.rad := by
    rw [hrad]
    have : dist3 realFns ((1:ℝ), 0, 0) ((1:ℝ), 0, 0) = 0 := by
      norm_num [dist3, realFns, Real.sqrt_zero]
    rw [this]
    linarith
  have hcosle : Real.cos (2 * (Real.pi / 180)) ≤ Real.cos (Real.pi / 180) :=
    Real.cos_le_cos_of_nonneg_of_le_pi (by linarith) (by linarith) (by linarith)
  have hd1 : dist3 realFns (Real.cos (Real.pi / 180), 0, Real.sin (Real.pi / 180))
      ((1:ℝ), 0, 0) ≤ c8state.rad := by
    rw [hrad]
    have harg : dist3 realFns (Real.cos (Real.pi / 180), 0, Real.sin (Real.pi / 180))
        ((1:ℝ), 0, 0) = Real.sqrt (2 - 2 * Real.cos (Real.pi / 180)) := by
      simp only [dist3, realFns]
      congr 1
      linear_combination Real.sin_sq_add_cos_sq (Real.pi / 180)
    rw [harg]
    refine Real.sqrt_le_iff.mpr ⟨by linarith, ?_⟩
    nlinarith [Real.sin_sq_eq_half_sub (Real.pi / 180), hcosle]
  have hcos2 : 0 < Real.cos (2 * (Real.pi / 180)) :=
    Real.cos_pos_of_mem_Ioo ⟨by linarith, by linarith⟩
  have hd2 : ¬ dist3 realFns ((0:ℝ), 1, 0) ((1:ℝ), 0, 0) ≤ c8state.rad := by
    rw [hrad]
    have harg : dist3 realFns ((0:ℝ), 1, 0) ((1:ℝ), 0, 0) = Real.sqrt 2 := by
      simp only [dist3, realFns]
      norm_num
    rw [harg, not_le]
    have hsq : (2 * Real.sin (Real.pi / 180)) ^ 2 < 2 := by
      nlinarith [Real.sin_sq_eq_half_sub (Real.pi / 180), hcos2]
    rw [show (2:ℝ) * Real.sin (Real.pi / 180) = 2 * Real.sin (Real.pi / 180) from rfl]
    exact (Real.lt_sqrt (by linarith)).mpr hsq
  -- the radius query returns rows 0 and 1
  have hq : queryBallPoint realFns c8state.tree (treexyz realFns 0 0) c8state.rad = [0, 1] := by
    rw [htree, ht00, queryBallPoint]
    rw [show ([((1:ℝ), 0, 0), (Real.cos (Real.pi / 180), 0, Real.sin (Real.pi / 180)),
        ((0:ℝ), 1, 0)] : List (ℝ × ℝ × ℝ)).length = 3 from rfl]
    rw [show List.range 3 = [0, 1, 2] from rfl]
    simp only [List.filter_cons, List.filter_nil, List.getD_cons_zero, List.getD_cons_succ]
    rw [decide_eq_true hd0, decide_eq_true hd1, decide_eq_false hd2]
    rfl
  -- footprint test for row 0: projected rectangle centered on the origin
  have hc1 : gnomonicProjectToxy realFns (Real.pi / 720) (Real.pi / 720) 0 0 =
      (Real.cos (Real.pi / 720) * Real.sin (Real.pi / 720) /
          (Real.cos (Real.pi / 720) * Real.cos (Real.pi / 720)),
        Real.sin (Real.pi / 720) / (Real.cos (Real.pi / 720) * Real.cos (Real.pi / 720))) :=
    gnom_center0 _ _
  have hc2 : gnomonicProjectToxy realFns (-(Real.pi / 720)) (Real.pi / 720) 0 0 =
      (-(Real.cos (Real.pi / 720) * Real.sin (Real.pi / 720) /
          (Real.cos (Real.pi / 720) * Real.cos (Real.pi / 720))),
        Real.sin (Real.pi / 720) / (Real.cos (Real.pi / 720) * Real.cos (Real.pi / 720))) := by
    rw [gnom_center0, Real.sin_neg, Real.cos_neg, Prod.mk.injEq]
    exact ⟨by ring, rfl⟩
  have hc3 : gnomonicProjectToxy realFns (-(Real.pi / 720)) (-(Real.pi / 720)) 0 0 =
      (-(Real.cos (Real.pi / 720) * Real.sin (Real.pi / 720) /
          (Real.cos (Real.pi / 720) * Real.cos (Real.pi / 720))),
        -(Real.sin (Real.pi / 720) / (Real.cos (Real.pi / 720) * Real.cos (Real.pi / 720)))) := by
    rw [gnom_center0, Real.sin_neg, Real.cos_neg, Prod.mk.injEq]
    exact ⟨by ring, by ring⟩
  have hc4 : gnomonicProjectToxy realFns (Real.pi / 720) (-(Real.pi / 720)) 0 0 =
      (Real.cos (Real.pi / 720) * Real.sin (Real.pi / 720) /
          (Real.cos (Real.pi / 720) * Real.cos (Real.pi / 720)),
        -(Real.sin (Real.pi / 720) / (Real.cos (Real.pi / 720) * Real.cos (Real.pi / 720)))) := by
    rw [gnom_center0, Real.sin_neg, Real.cos_neg, Prod.mk.injEq]
    exact ⟨by ring, by ring⟩
  have hloop0 : closedCornerLoop realFns c8state 0 0 0 =
      [(Real.cos (Real.pi / 720) * Real.sin (Real.pi / 720) /
          (Real.cos (Real.pi / 720) * Real.cos (Real.pi / 720)),
        Real.sin (Real.pi / 720) / (Real.cos (Real.pi / 720) * Real.cos (Real.pi / 720))),
       (-(Real.cos (Real.pi / 720) * Real.sin (Real.pi / 720) /
          (Real.cos (Real.pi / 720) * Real.cos (Real.pi / 720))),
        Real.sin (Real.pi / 720) / (Real.cos (Real.pi / 720) * Real.cos (Real.pi / 720))),
       (-(Real.cos (Real.pi / 720) * Real.sin (Real.pi / 720) /
          (Real.cos (Real.pi / 720) * Real.cos (Real.pi / 720))),
        -(Real.sin (Real.pi / 720) / (Real.cos (Real.pi / 720) * Real.cos (Real.pi / 720)))),
       (Real.cos (Real.pi / 720) * Real.sin (Real.pi / 720) /
          (Real.cos (Real.pi / 720) * Real.cos (Real.pi / 720)),
        -(Real.sin (Real.pi / 720) / (Real.cos (Real.pi / 720) * Real.cos (Real.pi / 720)))),
       (Real.cos (Real.pi / 720) * Real.sin (Real.pi / 720) /
          (Real.cos (Real.pi / 720) * Real.cos (Real.pi / 720)),
        Real.sin (Real.pi / 720) / (Real.cos (Real.pi / 720) * Real.cos (Real.pi / 720)))] := by
    simp only [closedCornerLoop, hcra1, hcdec1, hcra2, hcdec2, hcra3, hcdec3, hcra4, hcdec4,
      List.getD_cons_zero, hc1, hc2, hc3, hc4]
  have hl0 : pointInPath (0:ℝ) 0 (closedCornerLoop realFns c8state 0 0 0) = true := by
    rw [hloop0]
    exact pointInPath_rect _ _ (div_pos (mul_pos hca hsa) (mul_pos hca hca))
      (div_pos hsa (mul_pos hca hca))
  -- footprint test for row 1: all projected corners lie strictly above the x-axis
  have hl1 : pointInPath (0:ℝ) 0 (closedCornerLoop realFns c8state 1 0 0) = false := by
    refine pointInPath_false_of_ge 0 0 _ ?_
    intro w hw
    simp only [closedCornerLoop, hcra1, hcdec1, hcra2, hcdec2, hcra3, hcdec3, hcra4, hcdec4,
      List.getD_cons_succ, List.getD_cons_zero, List.mem_cons, List.not_mem_nil,
      or_false] at hw
    rcases hw with rfl | rfl | rfl | rfl | rfl
    · rw [gnom_center0]
      exact (div_pos hsdp (mul_pos hcdp hca)).le
    · rw [gnom_center0, Real.cos_neg]
      exact (div_pos hsdp (mul_pos hcdp hca)).le
    · rw [gnom_center0, Real.cos_neg]
      exact (div_pos hsdm (mul_pos hcdm hca)).le
    · rw [gnom_center0]
      exact (div_pos hsdm (mul_pos hcdm hca)).le
    · rw [gnom_center0]
      exact (div_pos hsdp (mul_pos hcdp hca)).le
  -- assemble
  refine ⟨hq, ?_⟩
  rw [sliceSimData_idxs_eq]
  rw [show c8state.spRa.getD 0 0 = (0:ℝ) from rfl, show c8state.spDec.getD 0 0 = (0:ℝ) from rfl]
  rw [hq]
  simp only [List.filter_cons, List.filter_nil, hl0, hl1]
  rfl

end RubinSlicer
